import Mathlib

/-!
Verification of the Bifrost Apertus provider slice: the per-key override
resolver, the request dispatcher, and the flat-row persistence codec
(`framework/configstore/tables/provider.go`, `core/providers/apertus/apertus.go`).

Machine strings are Lean `String`; nullable Go pointers are `Option`; Go maps
become association lists (`List (String × String)`); Go error returns become
`Except String`.  Serialized JSON text columns are modelled by inductives that
distinguish the well-formed encoding of a value from arbitrary raw text, so
that `json.Marshal` round-trips and `json.Unmarshal` failures are both
representable.
-/

namespace Bifrost

/-- Models Go `strings.TrimRight(s, "/")`: removes all trailing slash
characters. -/
def trimRightSlash (s : String) : String :=
  String.mk ((s.data.reverse.dropWhile (fun c => c = '/')).reverse)

/-- The per-key Apertus override value, `schemas.ApertusKeyConfig`
(declared in `core/schemas/account.go`; the Go struct is reproduced in the
repository README for the Apertus provider): an optional custom endpoint and
an optional public-to-backend model-name mapping (a Go `map[string]string`,
`nil` when absent). -/
structure ApertusKeyConfig where
  endpoint : String
  modelNameMappings : Option (List (String × String))
deriving DecidableEq, Repr

/-- Models `schemas.AzureKeyConfig`: endpoint, optional API version, optional
deployments map. -/
structure AzureKeyConfig where
  endpoint : String
  apiVersion : Option String
  deployments : Option (List (String × String))
deriving DecidableEq, Repr

/-- Models `schemas.VertexKeyConfig`. -/
structure VertexKeyConfig where
  projectID : String
  region : String
  authCredentials : String
deriving DecidableEq, Repr

/-- Models `schemas.BedrockKeyConfig`. -/
structure BedrockKeyConfig where
  accessKey : String
  secretKey : String
  sessionToken : Option String
  region : Option String
  arn : Option String
  deployments : Option (List (String × String))
deriving DecidableEq, Repr

/-- First-match association-list lookup, modelling Go map indexing
`m[k]` with the `ok` flag. -/
def lookupAssoc (m : List (String × String)) (k : String) : Option String :=
  match m with
  | [] => none
  | (a, b) :: rest => if a = k then some b else lookupAssoc rest k

/-- The slice of `schemas.Key` the provider reads: credential value, the
allowed-model list, and the per-provider override value. -/
structure Key where
  keyID : String
  value : String
  models : List String
  apertusKeyConfig : Option ApertusKeyConfig
deriving DecidableEq, Repr

/-- The slice of `schemas.NetworkConfig` the provider and codec read. -/
structure NetworkConfig where
  baseURL : String
  extraHeaders : List (String × String)
  defaultRequestTimeoutInSeconds : Nat
  maxRetries : Nat
  retryBackoffInitialMs : Nat
  retryBackoffMaxMs : Nat
deriving DecidableEq, Repr

/-- Models `schemas.ConcurrencyAndBufferSize`. -/
structure ConcurrencyAndBufferSize where
  concurrency : Nat
  bufferSize : Nat
deriving DecidableEq, Repr

/-- Models `schemas.ProxyConfig`. -/
structure ProxyConfig where
  url : String
deriving DecidableEq, Repr

/-- The request shapes of `schemas.RequestType` used by the Apertus
provider. -/
inductive RequestType where
  | textCompletion
  | textCompletionStream
  | chatCompletion
  | chatCompletionStream
  | responses
  | responsesStream
  | embedding
  | speech
  | speechStream
  | transcription
  | transcriptionStream
  | listModels
deriving DecidableEq, Repr

/-- The slice of `schemas.CustomProviderConfig` consulted here: the base
provider type (validated by the provider-table codec), an optional custom
provider name (consulted by `GetProviderName`), and per-request-shape path
overrides (consulted by `GetRequestPath`). -/
structure CustomProviderConfig where
  baseProviderType : String
  customProviderName : String
  requestPathOverrides : List (RequestType × String)
deriving DecidableEq, Repr

/-- Models `schemas.ProviderConfig`: the provider-level configuration handed to the
constructor. -/
structure ProviderConfig where
  networkConfig : NetworkConfig
  sendBackRawResponse : Bool
  customProviderConfig : Option CustomProviderConfig
deriving DecidableEq, Repr

/-- The provider state retained by `NewApertusProvider` (logger and HTTP
clients carry no observable dispatch behaviour and are omitted). -/
structure ApertusProvider where
  networkConfig : NetworkConfig
  sendBackRawResponse : Bool
  customProviderConfig : Option CustomProviderConfig
deriving DecidableEq, Repr

/-- Modelled from the spec: `providerUtils.GetProviderName` (not under
`src/`) returns the custom provider name when a custom provider config with a
non-empty name is present, else the base provider identity. -/
def getProviderName (base : String) (custom : Option CustomProviderConfig) : String :=
  match custom with
  | some c => if c.customProviderName ≠ "" then c.customProviderName else base
  | none => base

/-- Models `NewApertusProvider` (`apertus.go`): substitutes the hardcoded fallback
when the configured base URL is empty, then trims trailing slashes, and
retains the network config, raw-response flag and custom provider config. -/
def NewApertusProvider (config : ProviderConfig) : ApertusProvider :=
  let base0 := if config.networkConfig.baseURL = "" then "https://api.openai.com"
               else config.networkConfig.baseURL
  { networkConfig := { config.networkConfig with baseURL := trimRightSlash base0 }
    sendBackRawResponse := config.sendBackRawResponse
    customProviderConfig := config.customProviderConfig }

/-- Models `ApertusProvider.GetProviderKey`: the provider identity reported in all
results. -/
def ApertusProvider.GetProviderKey (p : ApertusProvider) : String :=
  getProviderName "apertus" p.customProviderConfig

/-- Models `ApertusProvider.getBaseURL` (`apertus.go`): the key's custom endpoint
with trailing slashes trimmed when the override is present and its endpoint
non-empty, else the provider's (already normalized) base URL. -/
def ApertusProvider.getBaseURL (p : ApertusProvider) (key : Key) : String :=
  match key.apertusKeyConfig with
  | some cfg => if cfg.endpoint ≠ "" then trimRightSlash cfg.endpoint else p.networkConfig.baseURL
  | none => p.networkConfig.baseURL

/-- Modelled from the spec: `providerUtils.GetRequestPath` (not under `src/`)
returns the request-shape-specific path override supplied by the provider
configuration when one exists, else the default path. -/
def getRequestPath (custom : Option CustomProviderConfig) (defaultPath : String)
    (rt : RequestType) : String :=
  match custom with
  | some c =>
    match (c.requestPathOverrides.find? (fun pr => pr.fst = rt)) with
    | some pr => pr.snd
    | none => defaultPath
  | none => defaultPath

/-- Models `ApertusProvider.buildRequestURL`: effective base URL for the key
concatenated with the (possibly overridden) path for the shape. -/
def ApertusProvider.buildRequestURL (p : ApertusProvider) (key : Key)
    (defaultPath : String) (rt : RequestType) : String :=
  p.getBaseURL key ++ getRequestPath p.customProviderConfig defaultPath rt

/-- Models `schemas.BifrostError` slice: the identity field
(`ExtraFields.Provider`) patched by the dispatcher, and the message. -/
structure BifrostError where
  provider : String
  message : String
deriving DecidableEq, Repr

/-- A Bifrost request carrying a model field (`BifrostChatRequest`,
`BifrostTextCompletionRequest`, `BifrostResponsesRequest`,
`BifrostEmbeddingRequest` are identical for dispatch purposes). -/
structure ModelRequest where
  model : String
deriving DecidableEq, Repr

/-- The observable arguments the dispatcher hands to a shared OpenAI handler
(`HandleOpenAIChatCompletionRequest` and its siblings): the target URL, the
model field of the request as dispatched, and the provider identity passed
for result stamping. -/
structure DelegatedCall where
  url : String
  model : String
  providerKey : String
deriving DecidableEq, Repr

/-- A model descriptor, `schemas.Model` slice. -/
structure Model where
  id : String
  ownedBy : Option String
deriving DecidableEq, Repr

/-- Models `schemas.BifrostListModelsResponse` slice: descriptors plus the extra
fields (provider identity, request type, reported latency). -/
structure ListModelsResponse where
  data : List Model
  provider : String
  requestType : RequestType
  latency : Nat
deriving DecidableEq, Repr

/-- A policy gate: models `providerUtils.CheckOperationAllowed
(schemas.Apertus, customProviderConfig, requestType)` (external collaborator,
not under `src/`), which either allows a shape or rejects it with an error. -/
abbrev Gate : Type := RequestType → Option BifrostError

/-- Models `ApertusProvider.TextCompletion` (`apertus.go`). -/
def ApertusProvider.TextCompletion (p : ApertusProvider) (gate : Gate) (key : Key)
    (request : ModelRequest) : Except BifrostError DelegatedCall :=
  match gate RequestType.textCompletion with
  | some e => Except.error e
  | none => Except.ok
      { url := p.buildRequestURL key "/v1/completions" RequestType.textCompletion
        model := request.model
        providerKey := p.GetProviderKey }

/-- Models `ApertusProvider.TextCompletionStream` (`apertus.go`). -/
def ApertusProvider.TextCompletionStream (p : ApertusProvider) (gate : Gate) (key : Key)
    (request : ModelRequest) : Except BifrostError DelegatedCall :=
  match gate RequestType.textCompletionStream with
  | some e => Except.error e
  | none => Except.ok
      { url := p.buildRequestURL key "/v1/completions" RequestType.textCompletionStream
        model := request.model
        providerKey := p.GetProviderKey }

/-- Models `ApertusProvider.ChatCompletion` (`apertus.go`): gate check, then
delegation to `HandleOpenAIChatCompletionRequest` with the built URL; the
request's model field is passed through unchanged (no mapping is applied in
the source). -/
def ApertusProvider.ChatCompletion (p : ApertusProvider) (gate : Gate) (key : Key)
    (request : ModelRequest) : Except BifrostError DelegatedCall :=
  match gate RequestType.chatCompletion with
  | some e => Except.error e
  | none => Except.ok
      { url := p.buildRequestURL key "/v1/chat/completions" RequestType.chatCompletion
        model := request.model
        providerKey := p.GetProviderKey }

/-- Models `ApertusProvider.ChatCompletionStream` (`apertus.go`). -/
def ApertusProvider.ChatCompletionStream (p : ApertusProvider) (gate : Gate) (key : Key)
    (request : ModelRequest) : Except BifrostError DelegatedCall :=
  match gate RequestType.chatCompletionStream with
  | some e => Except.error e
  | none => Except.ok
      { url := p.buildRequestURL key "/v1/chat/completions" RequestType.chatCompletionStream
        model := request.model
        providerKey := p.GetProviderKey }

/-- Models `ApertusProvider.Responses` (`apertus.go`). -/
def ApertusProvider.Responses (p : ApertusProvider) (gate : Gate) (key : Key)
    (request : ModelRequest) : Except BifrostError DelegatedCall :=
  match gate RequestType.responses with
  | some e => Except.error e
  | none => Except.ok
      { url := p.buildRequestURL key "/v1/responses" RequestType.responses
        model := request.model
        providerKey := p.GetProviderKey }

/-- Models `ApertusProvider.ResponsesStream` (`apertus.go`). -/
def ApertusProvider.ResponsesStream (p : ApertusProvider) (gate : Gate) (key : Key)
    (request : ModelRequest) : Except BifrostError DelegatedCall :=
  match gate RequestType.responsesStream with
  | some e => Except.error e
  | none => Except.ok
      { url := p.buildRequestURL key "/v1/responses" RequestType.responsesStream
        model := request.model
        providerKey := p.GetProviderKey }

/-- Models `ApertusProvider.Embedding` (`apertus.go`). -/
def ApertusProvider.Embedding (p : ApertusProvider) (gate : Gate) (key : Key)
    (request : ModelRequest) : Except BifrostError DelegatedCall :=
  match gate RequestType.embedding with
  | some e => Except.error e
  | none => Except.ok
      { url := p.buildRequestURL key "/v1/embeddings" RequestType.embedding
        model := request.model
        providerKey := p.GetProviderKey }

/-- A blocking speech or transcription result as observed by the caller:
provider identity in the extra fields, the target URL the delegate hit, and
the payload. -/
structure AudioResult where
  provider : String
  url : String
  payload : String
deriving DecidableEq, Repr

/-- One streamed event as observed by the caller: provider identity in the
event's extra fields plus the chunk data. -/
structure StreamEvent where
  provider : String
  data : String
deriving DecidableEq, Repr

/-- The identity a freshly constructed `openai.NewOpenAIProvider` instance
without a custom provider config reports. -/
def openAIIdentity : String := "openai"

/-- Modelled from the spec: the delegate `openai` provider's blocking
`Speech`/`Transcription` (not under `src/`) targets its configured base URL
plus the fixed suffix and stamps its own identity on both the success
response's metadata and any error's metadata.  `upstream` is the oracle for
the network outcome. -/
def openAIAudioCall (baseURL : String) (suffix : String)
    (upstream : Except String String) : Except BifrostError AudioResult :=
  match upstream with
  | Except.error msg => Except.error { provider := openAIIdentity, message := msg }
  | Except.ok payload => Except.ok
      { provider := openAIIdentity, url := baseURL ++ suffix, payload := payload }

/-- Modelled from the spec: the delegate `openai` provider's streaming
`SpeechStream`/`TranscriptionStream` (not under `src/`) stamps its own
identity on the error and on every emitted event. -/
def openAIAudioStream (_baseURL : String) (_suffix : String)
    (upstream : Except String (List String)) : Except BifrostError (List StreamEvent) :=
  match upstream with
  | Except.error msg => Except.error { provider := openAIIdentity, message := msg }
  | Except.ok chunks =>
    Except.ok (chunks.map (fun c => { provider := openAIIdentity, data := c }))

/-- Models `ApertusProvider.Speech` (`apertus.go`): gate check; construct a
transient `openai` provider scoped to the effective base URL; call its
`Speech`; then overwrite the identity field on the error or on the non-nil
response with this provider's own identity. -/
def ApertusProvider.Speech (p : ApertusProvider) (gate : Gate) (key : Key)
    (upstream : Except String String) : Except BifrostError AudioResult :=
  match gate RequestType.speech with
  | some e => Except.error e
  | none =>
    match openAIAudioCall (p.getBaseURL key) "/v1/audio/speech" upstream with
    | Except.error err => Except.error { err with provider := p.GetProviderKey }
    | Except.ok resp => Except.ok { resp with provider := p.GetProviderKey }

/-- Models `ApertusProvider.SpeechStream` (`apertus.go`): gate check; construct a
transient `openai` provider scoped to the effective base URL; return its
`SpeechStream` result directly, with no identity patch. -/
def ApertusProvider.SpeechStream (p : ApertusProvider) (gate : Gate) (key : Key)
    (upstream : Except String (List String)) : Except BifrostError (List StreamEvent) :=
  match gate RequestType.speechStream with
  | some e => Except.error e
  | none => openAIAudioStream (p.getBaseURL key) "/v1/audio/speech" upstream

/-- Models `ApertusProvider.Transcription` (`apertus.go`): like `Speech`, with the
transcription suffix; identity patched on error and success. -/
def ApertusProvider.Transcription (p : ApertusProvider) (gate : Gate) (key : Key)
    (upstream : Except String String) : Except BifrostError AudioResult :=
  match gate RequestType.transcription with
  | some e => Except.error e
  | none =>
    match openAIAudioCall (p.getBaseURL key) "/v1/audio/transcriptions" upstream with
    | Except.error err => Except.error { err with provider := p.GetProviderKey }
    | Except.ok resp => Except.ok { resp with provider := p.GetProviderKey }

/-- Models `ApertusProvider.TranscriptionStream` (`apertus.go`): like
`SpeechStream`; delegate result returned directly, no identity patch. -/
def ApertusProvider.TranscriptionStream (p : ApertusProvider) (gate : Gate) (key : Key)
    (upstream : Except String (List String)) : Except BifrostError (List StreamEvent) :=
  match gate RequestType.transcriptionStream with
  | some e => Except.error e
  | none => openAIAudioStream (p.getBaseURL key) "/v1/audio/transcriptions" upstream

/-- Inserting one model into the accumulated unique-model list: models the
`modelSet[model] = true` map insertion in `ListModels` (membership-based
deduplication; first occurrence kept). -/
def addModel (acc : List String) (m : String) : List String :=
  if m ∈ acc then acc else acc ++ [m]

/-- Collects the union of all keys' allowed-model lists with deduplication,
as the nested loops over `keys` and `key.Models` in `ListModels` do. -/
def collectModels (keys : List Key) : List String :=
  keys.foldl (fun acc k => k.models.foldl addModel acc) []

/-- Models `ApertusProvider.ListModels` (`apertus.go`): gate check; union of the
keys' allowed-model lists, deduplicated; one descriptor per unique model,
its ID the provider identity, a slash, then the configured model name; owned
by `system`; latency reported as zero because no API call is made. -/
def ApertusProvider.ListModels (p : ApertusProvider) (gate : Gate) (keys : List Key) :
    Except BifrostError ListModelsResponse :=
  match gate RequestType.listModels with
  | some e => Except.error e
  | none =>
    let models := collectModels keys
    Except.ok
      { data := models.map (fun m => { id := p.GetProviderKey ++ "/" ++ m, ownedBy := some "system" })
        provider := p.GetProviderKey
        requestType := RequestType.listModels
        latency := 0 }

/-- A stored text column holding a JSON string-array encoding
(`ModelsJSON`): `arr xs` is the well-formed `json.Marshal` output for `xs`
(never the empty string), `raw s` is any other text — `raw ""` is the empty
column, and a non-empty `raw` fails to unmarshal. -/
inductive ListJsonText where
  | arr (xs : List String)
  | raw (s : String)
deriving DecidableEq, Repr

/-- A stored text column holding a JSON object encoding of a
`map[string]string` (`AzureDeploymentsJSON`, `BedrockDeploymentsJSON`):
`obj m` is the well-formed marshal output for `m` (never the empty string),
`raw s` any other text, which fails to unmarshal. -/
inductive MapJsonText where
  | obj (m : List (String × String))
  | raw (s : String)
deriving DecidableEq, Repr

/-- Models `TableKey` (`framework/configstore/tables/key.go`): the persisted
columns of one key row (per-provider override columns embedded flat) plus
the virtual in-memory fields reconstructed by the hooks. -/
structure TableKey where
  name : String
  provider : String
  keyID : String
  value : String
  modelsJSON : ListJsonText
  azureEndpoint : Option String
  azureAPIVersion : Option String
  azureDeploymentsJSON : Option MapJsonText
  vertexProjectID : Option String
  vertexRegion : Option String
  vertexAuthCredentials : Option String
  bedrockAccessKey : Option String
  bedrockSecretKey : Option String
  bedrockSessionToken : Option String
  bedrockRegion : Option String
  bedrockARN : Option String
  bedrockDeploymentsJSON : Option MapJsonText
  apertusEndpoint : Option String
  models : Option (List String)
  azureKeyConfig : Option AzureKeyConfig
  vertexKeyConfig : Option VertexKeyConfig
  bedrockKeyConfig : Option BedrockKeyConfig
  apertusKeyConfig : Option ApertusKeyConfig
deriving DecidableEq, Repr

/-- Models `TableKey.BeforeSave`: copies each present in-memory override value into
its column group (empty string sub-fields become null columns, maps are
marshalled); an absent value nulls every column of its group; a nil model
list serializes to the explicit empty-list encoding.  `json.Marshal` cannot
fail on these values, so the hook is total.  Note the Apertus group persists
only the endpoint — the `modelNameMappings` field has no column and is
dropped. -/
def TableKey.BeforeSave (k : TableKey) : TableKey :=
  let k :=
    match k.models with
    | some xs => { k with modelsJSON := ListJsonText.arr xs }
    | none => { k with modelsJSON := ListJsonText.arr [] }
  let k :=
    match k.azureKeyConfig with
    | some c =>
      { k with
        azureEndpoint := if c.endpoint ≠ "" then some c.endpoint else none
        azureAPIVersion := c.apiVersion
        azureDeploymentsJSON := c.deployments.map MapJsonText.obj }
    | none =>
      { k with azureEndpoint := none, azureAPIVersion := none, azureDeploymentsJSON := none }
  let k :=
    match k.vertexKeyConfig with
    | some c =>
      { k with
        vertexProjectID := if c.projectID ≠ "" then some c.projectID else none
        vertexRegion := if c.region ≠ "" then some c.region else none
        vertexAuthCredentials := if c.authCredentials ≠ "" then some c.authCredentials else none }
    | none =>
      { k with vertexProjectID := none, vertexRegion := none, vertexAuthCredentials := none }
  let k :=
    match k.bedrockKeyConfig with
    | some c =>
      { k with
        bedrockAccessKey := if c.accessKey ≠ "" then some c.accessKey else none
        bedrockSecretKey := if c.secretKey ≠ "" then some c.secretKey else none
        bedrockSessionToken := c.sessionToken
        bedrockRegion := c.region
        bedrockARN := c.arn
        bedrockDeploymentsJSON := c.deployments.map MapJsonText.obj }
    | none =>
      { k with bedrockAccessKey := none, bedrockSecretKey := none, bedrockSessionToken := none,
               bedrockRegion := none, bedrockARN := none, bedrockDeploymentsJSON := none }
  match k.apertusKeyConfig with
  | some c =>
    { k with apertusEndpoint := if c.endpoint ≠ "" then some c.endpoint else none }
  | none => { k with apertusEndpoint := none }

/-- The models step of `TableKey.AfterFind`: unmarshal `ModelsJSON` when it
is non-empty; a malformed encoding is a hard error. -/
def TableKey.afterFindModels (k : TableKey) : Except String TableKey :=
  match k.modelsJSON with
  | ListJsonText.arr xs => Except.ok { k with models := some xs }
  | ListJsonText.raw s =>
    if s = "" then Except.ok k else Except.error "failed to unmarshal models JSON"

/-- The Azure step of `TableKey.AfterFind`: reconstruct only when the
endpoint column is non-null; a malformed deployments encoding is a hard
error. -/
def TableKey.afterFindAzure (k : TableKey) : Except String TableKey :=
  match k.azureEndpoint with
  | none => Except.ok k
  | some ep =>
    match k.azureDeploymentsJSON with
    | none =>
      let cfg : AzureKeyConfig := { endpoint := ep, apiVersion := k.azureAPIVersion, deployments := none }
      Except.ok { k with azureKeyConfig := some cfg }
    | some (MapJsonText.obj m) =>
      let cfg : AzureKeyConfig := { endpoint := ep, apiVersion := k.azureAPIVersion, deployments := some m }
      Except.ok { k with azureKeyConfig := some cfg }
    | some (MapJsonText.raw _) => Except.error "failed to unmarshal azure deployments JSON"

/-- The Vertex step of `TableKey.AfterFind`: reconstruct when any of the
three Vertex columns is non-null, filling absent sub-fields with the empty
string; cannot fail. -/
def TableKey.afterFindVertex (k : TableKey) : TableKey :=
  if k.vertexProjectID.isSome || k.vertexRegion.isSome || k.vertexAuthCredentials.isSome then
    let cfg : VertexKeyConfig :=
      { projectID := k.vertexProjectID.getD ""
        region := k.vertexRegion.getD ""
        authCredentials := k.vertexAuthCredentials.getD "" }
    { k with vertexKeyConfig := some cfg }
  else k

/-- The Bedrock reconstruction trigger of `TableKey.AfterFind`: any of the
five scalar columns non-null, or the deployments column non-null and not the
empty string. -/
def TableKey.bedrockTrigger (k : TableKey) : Bool :=
  k.bedrockAccessKey.isSome || k.bedrockSecretKey.isSome || k.bedrockSessionToken.isSome ||
  k.bedrockRegion.isSome || k.bedrockARN.isSome ||
  (match k.bedrockDeploymentsJSON with
   | some (MapJsonText.obj _) => true
   | some (MapJsonText.raw s) => s != ""
   | none => false)

/-- The Bedrock step of `TableKey.AfterFind`: on trigger, copy scalar
columns (empty string for absent access/secret key) and unmarshal the
deployments column whenever it is non-null; malformed text — including a
stored empty string reached via another column's trigger — is a hard
error. -/
def TableKey.afterFindBedrock (k : TableKey) : Except String TableKey :=
  if k.bedrockTrigger then
    match k.bedrockDeploymentsJSON with
    | none =>
      let cfg : BedrockKeyConfig :=
        { accessKey := k.bedrockAccessKey.getD "", secretKey := k.bedrockSecretKey.getD ""
          sessionToken := k.bedrockSessionToken, region := k.bedrockRegion
          arn := k.bedrockARN, deployments := none }
      Except.ok { k with bedrockKeyConfig := some cfg }
    | some (MapJsonText.obj m) =>
      let cfg : BedrockKeyConfig :=
        { accessKey := k.bedrockAccessKey.getD "", secretKey := k.bedrockSecretKey.getD ""
          sessionToken := k.bedrockSessionToken, region := k.bedrockRegion
          arn := k.bedrockARN, deployments := some m }
      Except.ok { k with bedrockKeyConfig := some cfg }
    | some (MapJsonText.raw _) => Except.error "failed to unmarshal bedrock deployments JSON"
  else Except.ok k

/-- The Apertus step of `TableKey.AfterFind`: reconstruct only when the
endpoint column is non-null; the reconstructed value's `modelNameMappings`
is always absent (there is no column for it); cannot fail. -/
def TableKey.afterFindApertus (k : TableKey) : TableKey :=
  match k.apertusEndpoint with
  | some ep => { k with apertusKeyConfig := some ({ endpoint := ep, modelNameMappings := none } : ApertusKeyConfig) }
  | none => k

/-- Models `TableKey.AfterFind`: the post-read hook, running the group steps in
source order with early return on the first deserialization failure. -/
def TableKey.AfterFind (k : TableKey) : Except String TableKey := do
  let k ← k.afterFindModels
  let k ← k.afterFindAzure
  let k := k.afterFindVertex
  let k ← k.afterFindBedrock
  pure k.afterFindApertus

/-- The row as materialized by the store on a read, before `AfterFind`
runs: only persisted columns carry data; the virtual fields (tagged
`gorm:"-"`, not stored in the database) start at their zero values
(`nil`). -/
def TableKey.reload (k : TableKey) : TableKey :=
  { k with models := none, azureKeyConfig := none, vertexKeyConfig := none,
           bedrockKeyConfig := none, apertusKeyConfig := none }

/-- A serialized JSON text column of the provider row: `doc a` is the
well-formed `json.Marshal` output for `a` (never the empty string), `raw s`
any other text — `raw ""` is the empty column, and a non-empty `raw` fails
to unmarshal. -/
inductive JsonCol (α : Type) where
  | doc (a : α)
  | raw (s : String)
deriving DecidableEq, Repr

/-- Models `TableProvider` (`framework/configstore/tables/provider.go`): the
persisted provider row with its serialized JSON columns and the virtual
runtime fields. -/
structure TableProvider where
  name : String
  networkConfigJSON : JsonCol NetworkConfig
  concurrencyBufferJSON : JsonCol ConcurrencyAndBufferSize
  proxyConfigJSON : JsonCol ProxyConfig
  customProviderConfigJSON : JsonCol CustomProviderConfig
  sendBackRawResponse : Bool
  networkConfig : Option NetworkConfig
  concurrencyAndBufferSize : Option ConcurrencyAndBufferSize
  proxyConfig : Option ProxyConfig
  customProviderConfig : Option CustomProviderConfig
deriving DecidableEq, Repr

/-- Models `TableProvider.BeforeSave`: serializes each non-nil virtual field into
its JSON column, leaving the column untouched when the field is nil; rejects
a custom provider config whose base provider type is empty. -/
def TableProvider.BeforeSave (p : TableProvider) : Except String TableProvider :=
  let p :=
    match p.networkConfig with
    | some c => { p with networkConfigJSON := JsonCol.doc c }
    | none => p
  let p :=
    match p.concurrencyAndBufferSize with
    | some c => { p with concurrencyBufferJSON := JsonCol.doc c }
    | none => p
  let p :=
    match p.proxyConfig with
    | some c => { p with proxyConfigJSON := JsonCol.doc c }
    | none => p
  match p.customProviderConfig with
  | some c =>
    if c.baseProviderType = "" then
      Except.error "base_provider_type is required when custom_provider_config is set"
    else
      Except.ok { p with customProviderConfigJSON := JsonCol.doc c }
  | none => Except.ok p

/-- Models `TableProvider.AfterFind`: deserializes each non-empty JSON column into
its virtual field, with a hard error on malformed text; empty columns leave
the field untouched. -/
def TableProvider.AfterFind (p : TableProvider) : Except String TableProvider := do
  let p ←
    match p.networkConfigJSON with
    | JsonCol.doc c => pure { p with networkConfig := some c }
    | JsonCol.raw s =>
      if s = "" then pure p else throw "failed to unmarshal network config JSON"
  let p ←
    match p.concurrencyBufferJSON with
    | JsonCol.doc c => pure { p with concurrencyAndBufferSize := some c }
    | JsonCol.raw s =>
      if s = "" then pure p else throw "failed to unmarshal concurrency buffer JSON"
  let p ←
    match p.proxyConfigJSON with
    | JsonCol.doc c => pure { p with proxyConfig := some c }
    | JsonCol.raw s =>
      if s = "" then pure p else throw "failed to unmarshal proxy config JSON"
  match p.customProviderConfigJSON with
  | JsonCol.doc c => pure { p with customProviderConfig := some c }
  | JsonCol.raw s =>
    if s = "" then pure p else throw "failed to unmarshal custom provider config JSON"

/-- Modelled from the spec: the empty/absent normalization of an Apertus
override value — a value whose every field is empty or absent collapses to
the absent value, and inside a present value an empty mapping collapses to
an absent mapping. -/
def normalizeApertus (v : Option ApertusKeyConfig) : Option ApertusKeyConfig :=
  match v with
  | none => none
  | some c =>
    let mappings := match c.modelNameMappings with
      | some [] => none
      | other => other
    if c.endpoint = "" ∧ mappings = none then none
    else some { endpoint := c.endpoint, modelNameMappings := mappings }

/-- Modelled from the spec: `effectiveModelName(keyOverride, requestedModel)`
— the mapped value when the override is present, its mapping non-nil, and
the requested model is a key of the mapping; otherwise the requested model
unchanged. -/
def effectiveModelName (keyOverride : Option ApertusKeyConfig) (requestedModel : String) : String :=
  match keyOverride with
  | some cfg =>
    match cfg.modelNameMappings with
    | some m =>
      match lookupAssoc m requestedModel with
      | some backend => backend
      | none => requestedModel
    | none => requestedModel
  | none => requestedModel

/-- A concrete network configuration used in witnesses (the default OpenAI
base URL documented in `NewApertusProvider`). -/
def demoNet : NetworkConfig :=
  { baseURL := "https://api.openai.com", extraHeaders := [],
    defaultRequestTimeoutInSeconds := 30, maxRetries := 3,
    retryBackoffInitialMs := 100, retryBackoffMaxMs := 2000 }

/-- A concrete provider without a custom provider config. -/
def demoProvider : ApertusProvider :=
  { networkConfig := demoNet, sendBackRawResponse := false, customProviderConfig := none }

/-- The provider configuration producing `demoProvider`. -/
def demoProviderConfig : ProviderConfig :=
  { networkConfig := demoNet, sendBackRawResponse := false, customProviderConfig := none }

/-- A provider configuration whose configured base URL is a bare slash. -/
def demoSlashConfig : ProviderConfig :=
  { networkConfig := { demoNet with baseURL := "/" }, sendBackRawResponse := false,
    customProviderConfig := none }

/-- A gate that allows every request shape. -/
def demoGateAllow : Gate := fun _ => none

/-- A concrete rejection error. -/
def demoErr : BifrostError := { provider := "apertus", message := "operation not allowed" }

/-- A gate that rejects every request shape with `demoErr`. -/
def demoGateReject : Gate := fun _ => some demoErr

/-- A key with no override. -/
def demoKeyPlain : Key :=
  { keyID := "key-2", value := "sk-yyyyy", models := ["gpt-4"], apertusKeyConfig := none }

/-- A key whose override carries a custom endpoint with a trailing slash and
no mappings. -/
def demoKeyEndpoint : Key :=
  { keyID := "key-1", value := "sk-xxxxx", models := ["gpt-4"],
    apertusKeyConfig := some { endpoint := "https://custom.example.com/", modelNameMappings := none } }

/-- A key whose override carries no endpoint and a non-empty model-name
mapping. -/
def demoKeyMapped : Key :=
  { keyID := "key-3", value := "sk-zzzzz", models := ["gpt-4o"],
    apertusKeyConfig := some { endpoint := "", modelNameMappings := some [("gpt-4o", "prod-deploy-1")] } }

/-- A second key sharing one model with `demoKeyEndpoint`. -/
def demoKeyTwoModels : Key :=
  { keyID := "key-4", value := "sk-wwwww", models := ["gpt-4", "gpt-3.5-turbo"],
    apertusKeyConfig := none }

/-- A custom provider config carrying a path override for the speech
shape. -/
def demoOverrideCfg : CustomProviderConfig :=
  { baseProviderType := "openai", customProviderName := "",
    requestPathOverrides := [(RequestType.speech, "/custom/speech")] }

/-- A provider configured with `demoOverrideCfg`. -/
def demoOverrideProvider : ApertusProvider :=
  { networkConfig := demoNet, sendBackRawResponse := false,
    customProviderConfig := some demoOverrideCfg }

/-- A key row with every column null/empty and every virtual field absent. -/
def demoRowBase : TableKey :=
  { name := "Primary Key", provider := "apertus", keyID := "key-1", value := "sk-xxxxx",
    modelsJSON := ListJsonText.raw "", azureEndpoint := none, azureAPIVersion := none,
    azureDeploymentsJSON := none, vertexProjectID := none, vertexRegion := none,
    vertexAuthCredentials := none, bedrockAccessKey := none, bedrockSecretKey := none,
    bedrockSessionToken := none, bedrockRegion := none, bedrockARN := none,
    bedrockDeploymentsJSON := none, apertusEndpoint := none, models := none,
    azureKeyConfig := none, vertexKeyConfig := none, bedrockKeyConfig := none,
    apertusKeyConfig := none }

/-- An Apertus override value with an empty endpoint and a non-empty
model-name mapping. -/
def demoMappingsCfg : ApertusKeyConfig :=
  { endpoint := "", modelNameMappings := some [("gpt-4o", "prod-deploy-1")] }

/-- An in-memory key row holding `demoMappingsCfg`, about to be saved. -/
def demoRowApertusMappings : TableKey :=
  { demoRowBase with models := some ["gpt-4o"], apertusKeyConfig := some demoMappingsCfg }

/-- A stored key row whose only non-null Azure column is the API version. -/
def demoRowAzureVersionOnly : TableKey :=
  { demoRowBase with azureAPIVersion := some "2024-06-01" }

/-- A stored provider row carrying a serialized network config but (as after
a fresh load followed by a clearing update) a nil virtual network config. -/
def demoProviderRow : TableProvider :=
  { name := "apertus", networkConfigJSON := JsonCol.doc demoNet,
    concurrencyBufferJSON := JsonCol.raw "", proxyConfigJSON := JsonCol.raw "",
    customProviderConfigJSON := JsonCol.raw "", sendBackRawResponse := false,
    networkConfig := none, concurrencyAndBufferSize := none, proxyConfig := none,
    customProviderConfig := none }

/-! ## Theorems -/

theorem trimRightSlash_eq_empty_iff (s : String) :
    trimRightSlash s = "" ↔ ∀ c ∈ s.data, c = '/' := by
  unfold trimRightSlash
  constructor
  · intro h c hc
    have hdata : (s.data.reverse.dropWhile (fun c => c = '/')).reverse = [] :=
      congrArg String.data h
    rw [List.reverse_eq_nil_iff] at hdata
    have := List.dropWhile_eq_nil_iff.mp hdata c (List.mem_reverse.mpr hc)
    simpa using this
  · intro h
    have hnil : s.data.reverse.dropWhile (fun c => decide (c = '/')) = [] := by
      rw [List.dropWhile_eq_nil_iff]
      intro x hx
      simpa using h x (List.mem_reverse.mp hx)
    simp [hnil]

theorem trimRightSlash_ne_empty {s : String} (h : ∃ c ∈ s.data, c ≠ '/') :
    trimRightSlash s ≠ "" := by
  intro he
  obtain ⟨c, hc, hne⟩ := h
  exact hne ((trimRightSlash_eq_empty_iff s).mp he c hc)

/-- Claim C4: for every key, if its override is absent or its override's
endpoint is empty, the effective base URL equals the provider default base
URL; if its override's endpoint is non-empty, the effective base URL equals
that endpoint with trailing slashes stripped, regardless of the provider
default. -/
theorem C4_effective_base_url (p : ApertusProvider) (key : Key) :
    (key.apertusKeyConfig = none → p.getBaseURL key = p.networkConfig.baseURL) ∧
    (∀ c, key.apertusKeyConfig = some c →
      (c.endpoint = "" → p.getBaseURL key = p.networkConfig.baseURL) ∧
      (c.endpoint ≠ "" → p.getBaseURL key = trimRightSlash c.endpoint)) := by
  constructor
  · intro h
    simp [ApertusProvider.getBaseURL, h]
  · intro c hc
    constructor
    · intro he
      simp [ApertusProvider.getBaseURL, hc, he]
    · intro he
      simp [ApertusProvider.getBaseURL, hc, he]

/-- Witness for C4 at concrete inputs: a key with a trailing-slash endpoint
resolves to the trimmed endpoint, and a key without an override resolves to
the provider default. -/
theorem C4_effective_base_url_witness :
    demoProvider.getBaseURL demoKeyEndpoint = trimRightSlash "https://custom.example.com/" ∧
    demoProvider.getBaseURL demoKeyPlain = demoProvider.networkConfig.baseURL :=
  ⟨((C4_effective_base_url demoProvider demoKeyEndpoint).2 _ rfl).2 (by decide),
   (C4_effective_base_url demoProvider demoKeyPlain).1 rfl⟩

/-- Counterexample for C5: a configured default base URL of a bare slash is
non-empty, so the hardcoded fallback is skipped, yet trimming leaves the
empty string — the effective base URL is empty for a key without an
override, contradicting the claim that it never is. -/
theorem C5_counterexample :
    (NewApertusProvider demoSlashConfig).getBaseURL demoKeyPlain = "" := rfl

/-- Claim C5 (amended): the effective base URL is non-empty provided the
configured default is empty (triggering the hardcoded fallback) or contains
a non-slash character, and any non-empty per-key endpoint contains a
non-slash character; a configured default or endpoint consisting entirely of
slashes trims to the empty string. -/
theorem C5_base_url_nonempty (cfg : ProviderConfig) (key : Key)
    (hdef : cfg.networkConfig.baseURL = "" ∨ ∃ c ∈ cfg.networkConfig.baseURL.data, c ≠ '/')
    (hkey : ∀ kc, key.apertusKeyConfig = some kc → kc.endpoint ≠ "" →
      ∃ c ∈ kc.endpoint.data, c ≠ '/') :
    (NewApertusProvider cfg).getBaseURL key ≠ "" := by
  have hbase : (NewApertusProvider cfg).networkConfig.baseURL ≠ "" := by
    rcases hdef with h | h
    · simp only [NewApertusProvider, h]
      decide
    · by_cases hb : cfg.networkConfig.baseURL = ""
      · simp only [NewApertusProvider, hb]
        decide
      · simp only [NewApertusProvider, hb]
        simpa using trimRightSlash_ne_empty h
  cases hk : key.apertusKeyConfig with
  | none => simpa [ApertusProvider.getBaseURL, hk] using hbase
  | some kc =>
    by_cases he : kc.endpoint = ""
    · simpa [ApertusProvider.getBaseURL, hk, he] using hbase
    · simpa [ApertusProvider.getBaseURL, hk, he] using
        trimRightSlash_ne_empty (hkey kc hk he)

/-- Witness for C5 (amended) at concrete inputs. -/
theorem C5_base_url_nonempty_witness :
    ((NewApertusProvider demoProviderConfig).getBaseURL demoKeyEndpoint = "") = False :=
  eq_false <| C5_base_url_nonempty demoProviderConfig demoKeyEndpoint
    (Or.inr ⟨'h', by decide, by decide⟩)
    (fun kc hkc _ => by
      have hkc2 : kc = { endpoint := "https://custom.example.com/", modelNameMappings := none } := by
        simpa [demoKeyEndpoint] using hkc.symm
      subst hkc2
      exact ⟨'h', by decide, by decide⟩)

/-- Claim C2 (code-bug demonstration): `ChatCompletion` dispatches the
request's model field unchanged even when the key's override carries a
mapping entry for it; the spec (and the repository README, which shows the
`getModelName` rewrite inside `ChatCompletion`) requires the dispatched
model to be the mapped value. -/
theorem C2_model_not_rewritten :
    ApertusProvider.ChatCompletion demoProvider demoGateAllow demoKeyMapped { model := "gpt-4o" } =
      Except.ok { url := "https://api.openai.com/v1/chat/completions",
                  model := "gpt-4o", providerKey := "apertus" } ∧
    effectiveModelName demoKeyMapped.apertusKeyConfig "gpt-4o" = "prod-deploy-1" ∧
    (("gpt-4o" : String) = "prod-deploy-1") = False :=
  ⟨rfl, rfl, eq_false (by decide)⟩

/-- Claim C1 (code-bug demonstration): the key codec's pre-write hook has no
column for `modelNameMappings`, so an Apertus override value with an empty
endpoint and a non-empty mapping encodes to an all-null Apertus group and
decodes to an absent override value — but the value is not all-empty, so
normalization keeps it present and the round trip fails. -/
theorem C1_roundtrip_drops_mappings :
    (demoRowApertusMappings.BeforeSave).apertusEndpoint = none ∧
    (((demoRowApertusMappings.BeforeSave).reload).AfterFind).map (fun k => k.apertusKeyConfig) =
      Except.ok none ∧
    normalizeApertus demoRowApertusMappings.apertusKeyConfig = some demoMappingsCfg :=
  ⟨rfl, rfl, by decide⟩

/-- Counterexample for C3: a failing streamed speech call through the
transient delegate returns the delegate's `openai` identity untouched, while
this provider's identity is `apertus`. -/
theorem C3_counterexample :
    ApertusProvider.SpeechStream demoProvider demoGateAllow demoKeyEndpoint
      (Except.error "boom") =
      Except.error { provider := openAIIdentity, message := "boom" } ∧
    demoProvider.GetProviderKey = "apertus" ∧
    (openAIIdentity = demoProvider.GetProviderKey) = False :=
  ⟨rfl, rfl, eq_false (by decide)⟩

/-- Claim C3 (amended): the identity patch applies only to the blocking
delegated calls — `Speech` and `Transcription` report this provider's own
identity on success and on failure — while the streaming variants return the
delegate's result unmodified, so their errors and emitted events carry the
internal delegate's identity. -/
theorem C3_identity_patch (p : ApertusProvider) (gate : Gate) (key : Key)
    (up : Except String String) (ups : Except String (List String)) :
    (∀ r, p.Speech gate key up = Except.ok r → r.provider = p.GetProviderKey) ∧
    (∀ e, gate RequestType.speech = none → p.Speech gate key up = Except.error e →
      e.provider = p.GetProviderKey) ∧
    (∀ r, p.Transcription gate key up = Except.ok r → r.provider = p.GetProviderKey) ∧
    (∀ e, gate RequestType.transcription = none →
      p.Transcription gate key up = Except.error e → e.provider = p.GetProviderKey) ∧
    (∀ e, gate RequestType.speechStream = none →
      p.SpeechStream gate key ups = Except.error e → e.provider = openAIIdentity) ∧
    (∀ evs ev, p.SpeechStream gate key ups = Except.ok evs → ev ∈ evs →
      ev.provider = openAIIdentity) ∧
    (∀ e, gate RequestType.transcriptionStream = none →
      p.TranscriptionStream gate key ups = Except.error e → e.provider = openAIIdentity) ∧
    (∀ evs ev, p.TranscriptionStream gate key ups = Except.ok evs → ev ∈ evs →
      ev.provider = openAIIdentity) := by
  refine ⟨?_, ?_, ?_, ?_, ?_, ?_, ?_, ?_⟩
  · intro r h
    cases hg : gate RequestType.speech with
    | some e => simp [ApertusProvider.Speech, hg] at h
    | none =>
      cases up with
      | error m => simp [ApertusProvider.Speech, hg, openAIAudioCall] at h
      | ok payload =>
        simp only [ApertusProvider.Speech, hg, openAIAudioCall] at h
        obtain rfl := Except.ok.inj h
        rfl
  · intro e hg h
    cases up with
    | error m =>
      simp only [ApertusProvider.Speech, hg, openAIAudioCall] at h
      obtain rfl := Except.error.inj h
      rfl
    | ok payload => simp [ApertusProvider.Speech, hg, openAIAudioCall] at h
  · intro r h
    cases hg : gate RequestType.transcription with
    | some e => simp [ApertusProvider.Transcription, hg] at h
    | none =>
      cases up with
      | error m => simp [ApertusProvider.Transcription, hg, openAIAudioCall] at h
      | ok payload =>
        simp only [ApertusProvider.Transcription, hg, openAIAudioCall] at h
        obtain rfl := Except.ok.inj h
        rfl
  · intro e hg h
    cases up with
    | error m =>
      simp only [ApertusProvider.Transcription, hg, openAIAudioCall] at h
      obtain rfl := Except.error.inj h
      rfl
    | ok payload => simp [ApertusProvider.Transcription, hg, openAIAudioCall] at h
  · intro e hg h
    cases ups with
    | error m =>
      simp only [ApertusProvider.SpeechStream, hg, openAIAudioStream] at h
      obtain rfl := Except.error.inj h
      rfl
    | ok chunks => simp [ApertusProvider.SpeechStream, hg, openAIAudioStream] at h
  · intro evs ev h hev
    cases hg : gate RequestType.speechStream with
    | some e => simp [ApertusProvider.SpeechStream, hg] at h
    | none =>
      cases ups with
      | error m => simp [ApertusProvider.SpeechStream, hg, openAIAudioStream] at h
      | ok chunks =>
        simp only [ApertusProvider.SpeechStream, hg, openAIAudioStream] at h
        obtain rfl := Except.ok.inj h
        obtain ⟨c, _, rfl⟩ := List.mem_map.mp hev
        rfl
  · intro e hg h
    cases ups with
    | error m =>
      simp only [ApertusProvider.TranscriptionStream, hg, openAIAudioStream] at h
      obtain rfl := Except.error.inj h
      rfl
    | ok chunks => simp [ApertusProvider.TranscriptionStream, hg, openAIAudioStream] at h
  · intro evs ev h hev
    cases hg : gate RequestType.transcriptionStream with
    | some e => simp [ApertusProvider.TranscriptionStream, hg] at h
    | none =>
      cases ups with
      | error m => simp [ApertusProvider.TranscriptionStream, hg, openAIAudioStream] at h
      | ok chunks =>
        simp only [ApertusProvider.TranscriptionStream, hg, openAIAudioStream] at h
        obtain rfl := Except.ok.inj h
        obtain ⟨c, _, rfl⟩ := List.mem_map.mp hev
        rfl

/-- Witness for C3 (amended) at concrete inputs: a failing blocking speech
call reports the patched `apertus` identity. -/
theorem C3_identity_patch_witness :
    BifrostError.provider { provider := "apertus", message := "down" } =
      demoProvider.GetProviderKey :=
  (C3_identity_patch demoProvider demoGateAllow demoKeyEndpoint
    (Except.error "down") (Except.error "down")).2.1
    { provider := "apertus", message := "down" } rfl rfl

/-- Claim C7: every dispatch entry point — every request shape and mode —
invokes the policy gate first, and on rejection returns the gate's error
unchanged, without computing any network target (the rejected result carries
no dispatch record at all). -/
theorem C7_gate_first (p : ApertusProvider) (gate : Gate) (key : Key) (req : ModelRequest)
    (keys : List Key) (up : Except String String) (ups : Except String (List String))
    (e : BifrostError) :
    (gate RequestType.textCompletion = some e →
      p.TextCompletion gate key req = Except.error e) ∧
    (gate RequestType.textCompletionStream = some e →
      p.TextCompletionStream gate key req = Except.error e) ∧
    (gate RequestType.chatCompletion = some e →
      p.ChatCompletion gate key req = Except.error e) ∧
    (gate RequestType.chatCompletionStream = some e →
      p.ChatCompletionStream gate key req = Except.error e) ∧
    (gate RequestType.responses = some e →
      p.Responses gate key req = Except.error e) ∧
    (gate RequestType.responsesStream = some e →
      p.ResponsesStream gate key req = Except.error e) ∧
    (gate RequestType.embedding = some e →
      p.Embedding gate key req = Except.error e) ∧
    (gate RequestType.speech = some e →
      p.Speech gate key up = Except.error e) ∧
    (gate RequestType.speechStream = some e →
      p.SpeechStream gate key ups = Except.error e) ∧
    (gate RequestType.transcription = some e →
      p.Transcription gate key up = Except.error e) ∧
    (gate RequestType.transcriptionStream = some e →
      p.TranscriptionStream gate key ups = Except.error e) ∧
    (gate RequestType.listModels = some e →
      p.ListModels gate keys = Except.error e) := by
  refine ⟨?_, ?_, ?_, ?_, ?_, ?_, ?_, ?_, ?_, ?_, ?_, ?_⟩ <;> intro hg <;>
    simp [ApertusProvider.TextCompletion, ApertusProvider.TextCompletionStream,
      ApertusProvider.ChatCompletion, ApertusProvider.ChatCompletionStream,
      ApertusProvider.Responses, ApertusProvider.ResponsesStream, ApertusProvider.Embedding,
      ApertusProvider.Speech, ApertusProvider.SpeechStream, ApertusProvider.Transcription,
      ApertusProvider.TranscriptionStream, ApertusProvider.ListModels, hg]

/-- Witness for C7 at concrete inputs: a rejecting gate makes chat
completion and model listing return the gate's error unchanged. -/
theorem C7_gate_first_witness :
    demoProvider.ChatCompletion demoGateReject demoKeyEndpoint { model := "gpt-4" } =
      Except.error demoErr ∧
    demoProvider.ListModels demoGateReject [demoKeyEndpoint] = Except.error demoErr :=
  ⟨(C7_gate_first demoProvider demoGateReject demoKeyEndpoint { model := "gpt-4" }
      [demoKeyEndpoint] (Except.error "x") (Except.error "x") demoErr).2.2.1 rfl,
   (C7_gate_first demoProvider demoGateReject demoKeyEndpoint { model := "gpt-4" }
      [demoKeyEndpoint] (Except.error "x") (Except.error "x")
      demoErr).2.2.2.2.2.2.2.2.2.2.2 rfl⟩

/-- Counterexample for C6: with a speech path override supplied by the
provider configuration, the delegated speech dispatch still targets the
fixed `/v1/audio/speech` suffix — the transient delegate is constructed
without the custom provider config, so the override is ignored — and the
dispatched URL therefore differs from the effective base URL concatenated
with the overridden path that the claim requires for every shape. -/
theorem C6_counterexample :
    demoOverrideProvider.Speech demoGateAllow demoKeyPlain (Except.ok "audio") =
      Except.ok { provider := "apertus", url := "https://api.openai.com/v1/audio/speech",
                  payload := "audio" } ∧
    getRequestPath demoOverrideProvider.customProviderConfig "/v1/audio/speech"
      RequestType.speech = "/custom/speech" ∧
    (("https://api.openai.com/v1/audio/speech" : String) =
      demoOverrideProvider.getBaseURL demoKeyPlain ++
        getRequestPath demoOverrideProvider.customProviderConfig "/v1/audio/speech"
          RequestType.speech) = False :=
  ⟨rfl, rfl, eq_false (by decide)⟩

/-- Claim C6 (amended): for the seven shapes dispatched through
`buildRequestURL` — text completion, chat completion, responses (blocking
and streaming) and embeddings — the dispatched target URL is the key's
effective base URL concatenated with the shape's path after any configured
path override; the delegated speech and transcription shapes instead always
target the effective base URL plus the fixed suffix, ignoring any configured
path override, because the transient delegate is constructed without the
custom provider config.  The claim's concrete scenario holds: a key with
endpoint `https://custom.example.com/` sends chat completions to
`https://custom.example.com/v1/chat/completions`. -/
theorem C6_dispatch_paths (p : ApertusProvider) (gate : Gate) (key : Key) (req : ModelRequest)
    (up : Except String String) :
    (∀ d, p.TextCompletion gate key req = Except.ok d → d.url =
      p.getBaseURL key ++ getRequestPath p.customProviderConfig "/v1/completions"
        RequestType.textCompletion) ∧
    (∀ d, p.TextCompletionStream gate key req = Except.ok d → d.url =
      p.getBaseURL key ++ getRequestPath p.customProviderConfig "/v1/completions"
        RequestType.textCompletionStream) ∧
    (∀ d, p.ChatCompletion gate key req = Except.ok d → d.url =
      p.getBaseURL key ++ getRequestPath p.customProviderConfig "/v1/chat/completions"
        RequestType.chatCompletion) ∧
    (∀ d, p.ChatCompletionStream gate key req = Except.ok d → d.url =
      p.getBaseURL key ++ getRequestPath p.customProviderConfig "/v1/chat/completions"
        RequestType.chatCompletionStream) ∧
    (∀ d, p.Responses gate key req = Except.ok d → d.url =
      p.getBaseURL key ++ getRequestPath p.customProviderConfig "/v1/responses"
        RequestType.responses) ∧
    (∀ d, p.ResponsesStream gate key req = Except.ok d → d.url =
      p.getBaseURL key ++ getRequestPath p.customProviderConfig "/v1/responses"
        RequestType.responsesStream) ∧
    (∀ d, p.Embedding gate key req = Except.ok d → d.url =
      p.getBaseURL key ++ getRequestPath p.customProviderConfig "/v1/embeddings"
        RequestType.embedding) ∧
    (∀ r, p.Speech gate key up = Except.ok r →
      r.url = p.getBaseURL key ++ "/v1/audio/speech") ∧
    (∀ r, p.Transcription gate key up = Except.ok r →
      r.url = p.getBaseURL key ++ "/v1/audio/transcriptions") ∧
    (NewApertusProvider demoProviderConfig).ChatCompletion demoGateAllow demoKeyEndpoint
        { model := "gpt-4" } =
      Except.ok { url := "https://custom.example.com/v1/chat/completions",
                  model := "gpt-4", providerKey := "apertus" } := by
  refine ⟨?_, ?_, ?_, ?_, ?_, ?_, ?_, ?_, ?_, rfl⟩
  · intro d h
    cases hg : gate RequestType.textCompletion with
    | some e => simp [ApertusProvider.TextCompletion, hg] at h
    | none =>
      simp only [ApertusProvider.TextCompletion, hg] at h
      obtain rfl := Except.ok.inj h
      rfl
  · intro d h
    cases hg : gate RequestType.textCompletionStream with
    | some e => simp [ApertusProvider.TextCompletionStream, hg] at h
    | none =>
      simp only [ApertusProvider.TextCompletionStream, hg] at h
      obtain rfl := Except.ok.inj h
      rfl
  · intro d h
    cases hg : gate RequestType.chatCompletion with
    | some e => simp [ApertusProvider.ChatCompletion, hg] at h
    | none =>
      simp only [ApertusProvider.ChatCompletion, hg] at h
      obtain rfl := Except.ok.inj h
      rfl
  · intro d h
    cases hg : gate RequestType.chatCompletionStream with
    | some e => simp [ApertusProvider.ChatCompletionStream, hg] at h
    | none =>
      simp only [ApertusProvider.ChatCompletionStream, hg] at h
      obtain rfl := Except.ok.inj h
      rfl
  · intro d h
    cases hg : gate RequestType.responses with
    | some e => simp [ApertusProvider.Responses, hg] at h
    | none =>
      simp only [ApertusProvider.Responses, hg] at h
      obtain rfl := Except.ok.inj h
      rfl
  · intro d h
    cases hg : gate RequestType.responsesStream with
    | some e => simp [ApertusProvider.ResponsesStream, hg] at h
    | none =>
      simp only [ApertusProvider.ResponsesStream, hg] at h
      obtain rfl := Except.ok.inj h
      rfl
  · intro d h
    cases hg : gate RequestType.embedding with
    | some e => simp [ApertusProvider.Embedding, hg] at h
    | none =>
      simp only [ApertusProvider.Embedding, hg] at h
      obtain rfl := Except.ok.inj h
      rfl
  · intro r h
    cases hg : gate RequestType.speech with
    | some e => simp [ApertusProvider.Speech, hg] at h
    | none =>
      cases up with
      | error m => simp [ApertusProvider.Speech, hg, openAIAudioCall] at h
      | ok payload =>
        simp only [ApertusProvider.Speech, hg, openAIAudioCall] at h
        obtain rfl := Except.ok.inj h
        rfl
  · intro r h
    cases hg : gate RequestType.transcription with
    | some e => simp [ApertusProvider.Transcription, hg] at h
    | none =>
      cases up with
      | error m => simp [ApertusProvider.Transcription, hg, openAIAudioCall] at h
      | ok payload =>
        simp only [ApertusProvider.Transcription, hg, openAIAudioCall] at h
        obtain rfl := Except.ok.inj h
        rfl

/-- Witness for C6 (amended) at concrete inputs: the embedding conjunct
applied to the concrete dispatch of `demoKeyEndpoint`, and the speech
conjunct applied to the override-carrying provider, whose delegated call
targets the fixed suffix. -/
theorem C6_dispatch_paths_witness :
    ({ url := "https://custom.example.com/v1/embeddings", model := "e1",
       providerKey := "apertus" } : DelegatedCall).url =
      demoProvider.getBaseURL demoKeyEndpoint ++
        getRequestPath demoProvider.customProviderConfig "/v1/embeddings"
          RequestType.embedding ∧
    AudioResult.url { provider := "apertus", url := "https://api.openai.com/v1/audio/speech", payload := "audio" } =
      demoOverrideProvider.getBaseURL demoKeyPlain ++ "/v1/audio/speech" :=
  ⟨(C6_dispatch_paths demoProvider demoGateAllow demoKeyEndpoint { model := "e1" }
      (Except.error "x")).2.2.2.2.2.2.1 _ rfl,
   (C6_dispatch_paths demoOverrideProvider demoGateAllow demoKeyPlain { model := "e1" }
      (Except.ok "audio")).2.2.2.2.2.2.2.1 _ rfl⟩

theorem mem_foldl_addModel (ms : List String) (acc : List String) (x : String) :
    x ∈ ms.foldl addModel acc ↔ x ∈ acc ∨ x ∈ ms := by
  induction ms generalizing acc with
  | nil => simp
  | cons m ms ih =>
    rw [List.foldl_cons, ih]
    unfold addModel
    by_cases hm : m ∈ acc
    · simp only [hm, if_true, List.mem_cons]
      constructor
      · tauto
      · rintro (h | rfl | h)
        · exact Or.inl h
        · exact Or.inl hm
        · exact Or.inr h
    · simp only [hm, if_false, List.mem_append, List.mem_singleton, List.mem_cons]
      tauto

theorem nodup_foldl_addModel (ms : List String) (acc : List String) (h : acc.Nodup) :
    (ms.foldl addModel acc).Nodup := by
  induction ms generalizing acc with
  | nil => simpa
  | cons m ms ih =>
    rw [List.foldl_cons]
    apply ih
    unfold addModel
    by_cases hm : m ∈ acc
    · simpa [hm]
    · simp only [hm, if_false]
      rw [List.nodup_append]
      exact ⟨h, List.nodup_singleton m, by simpa [List.disjoint_singleton] using hm⟩

theorem mem_collect_aux (keys : List Key) (acc : List String) (x : String) :
    x ∈ keys.foldl (fun a k => k.models.foldl addModel a) acc ↔
      x ∈ acc ∨ ∃ k ∈ keys, x ∈ k.models := by
  induction keys generalizing acc with
  | nil => simp
  | cons k ks ih =>
    rw [List.foldl_cons, ih, mem_foldl_addModel]
    simp only [List.mem_cons]
    constructor
    · rintro ((h | h) | ⟨k2, hk2, hx⟩)
      · exact Or.inl h
      · exact Or.inr ⟨k, Or.inl rfl, h⟩
      · exact Or.inr ⟨k2, Or.inr hk2, hx⟩
    · rintro (h | ⟨k2, hk2 | hk2, hx⟩)
      · exact Or.inl (Or.inl h)
      · subst hk2
        exact Or.inl (Or.inr hx)
      · exact Or.inr ⟨k2, hk2, hx⟩

theorem mem_collectModels (keys : List Key) (x : String) :
    x ∈ collectModels keys ↔ ∃ k ∈ keys, x ∈ k.models := by
  simpa [collectModels] using mem_collect_aux keys [] x

theorem nodup_collect_aux (keys : List Key) (acc : List String) (h : acc.Nodup) :
    (keys.foldl (fun a k => k.models.foldl addModel a) acc).Nodup := by
  induction keys generalizing acc with
  | nil => simpa
  | cons k ks ih =>
    rw [List.foldl_cons]
    exact ih _ (nodup_foldl_addModel _ _ h)

theorem nodup_collectModels (keys : List Key) : (collectModels keys).Nodup :=
  nodup_collect_aux keys [] List.nodup_nil

theorem collectModels_eq_of_models_eq (keys1 keys2 : List Key)
    (h : keys1.map Key.models = keys2.map Key.models) :
    collectModels keys1 = collectModels keys2 := by
  unfold collectModels
  rw [← List.foldl_map Key.models (fun a ms => ms.foldl addModel a) keys1 [],
      ← List.foldl_map Key.models (fun a ms => ms.foldl addModel a) keys2 [], h]

/-- Claim C9: model listing performs no network call and reports latency
exactly zero; its data is the deduplicated union of the keys' allowed-model
lists, one descriptor per unique model name, each ID formed from the
provider identity, a slash, and the configured (pre-mapping) model name; and
the result depends only on the keys' configured model lists, never on their
model-name mappings. -/
theorem C9_list_models (p : ApertusProvider) (gate : Gate) (keys : List Key)
    (hg : gate RequestType.listModels = none) :
    p.ListModels gate keys = Except.ok
      { data := (collectModels keys).map
          (fun m => { id := p.GetProviderKey ++ "/" ++ m, ownedBy := some "system" })
        provider := p.GetProviderKey
        requestType := RequestType.listModels
        latency := 0 } ∧
    (collectModels keys).Nodup ∧
    (∀ x, x ∈ collectModels keys ↔ ∃ k ∈ keys, x ∈ k.models) ∧
    (∀ keys2, keys.map Key.models = keys2.map Key.models →
      p.ListModels gate keys = p.ListModels gate keys2) := by
  refine ⟨?_, nodup_collectModels keys, fun x => mem_collectModels keys x, ?_⟩
  · simp [ApertusProvider.ListModels, hg]
  · intro keys2 h
    simp [ApertusProvider.ListModels, hg, collectModels_eq_of_models_eq keys keys2 h]

/-- Witness for C9 at concrete inputs: two keys with an overlapping model
produce one deduplicated descriptor list with zero latency. -/
theorem C9_list_models_witness :
    demoProvider.ListModels demoGateAllow [demoKeyEndpoint, demoKeyTwoModels] = Except.ok
      { data := [{ id := "apertus/gpt-4", ownedBy := some "system" },
                 { id := "apertus/gpt-3.5-turbo", ownedBy := some "system" }]
        provider := "apertus"
        requestType := RequestType.listModels
        latency := 0 } :=
  (C9_list_models demoProvider demoGateAllow [demoKeyEndpoint, demoKeyTwoModels] rfl).1

theorem afterFind_networkConfig_of_doc (q : TableProvider) (c : NetworkConfig)
    (r : TableProvider) (hq : q.networkConfigJSON = JsonCol.doc c)
    (h : q.AfterFind = Except.ok r) : r.networkConfig = some c := by
  unfold TableProvider.AfterFind at h
  rw [hq] at h
  iterate 8
    all_goals try simp only [bind, Except.bind, pure, Except.pure] at h
    all_goals try split at h
  all_goals try (obtain rfl := Except.ok.inj h; rfl)
  all_goals simp_all

theorem beforeSave_preserves_nil_columns (p q : TableProvider)
    (hsave : p.BeforeSave = Except.ok q) :
    (p.networkConfig = none → q.networkConfigJSON = p.networkConfigJSON) ∧
    (p.concurrencyAndBufferSize = none → q.concurrencyBufferJSON = p.concurrencyBufferJSON) ∧
    (p.proxyConfig = none → q.proxyConfigJSON = p.proxyConfigJSON) ∧
    (p.customProviderConfig = none →
      q.customProviderConfigJSON = p.customProviderConfigJSON) := by
  cases hnc : p.networkConfig <;> cases hcb : p.concurrencyAndBufferSize <;>
    cases hpx : p.proxyConfig <;> cases hcp : p.customProviderConfig <;>
    simp only [TableProvider.BeforeSave, hnc, hcb, hpx, hcp] at hsave <;>
    (try split at hsave) <;> (try cases hsave) <;> simp_all

/-- Claim C10: in the provider-table codec a nil virtual configuration field
leaves its serialized JSON column unchanged at save time rather than
clearing it, so a previously persisted configuration is resurrected on the
next read — unlike the key-table codec, where an absent override value nulls
every column of its group. -/
theorem C10_sticky_provider_columns (p q : TableProvider) (k : TableKey)
    (hsave : p.BeforeSave = Except.ok q) :
    (p.networkConfig = none → q.networkConfigJSON = p.networkConfigJSON) ∧
    (p.concurrencyAndBufferSize = none → q.concurrencyBufferJSON = p.concurrencyBufferJSON) ∧
    (p.proxyConfig = none → q.proxyConfigJSON = p.proxyConfigJSON) ∧
    (p.customProviderConfig = none → q.customProviderConfigJSON = p.customProviderConfigJSON) ∧
    (∀ c r, p.networkConfig = none → p.networkConfigJSON = JsonCol.doc c →
      q.AfterFind = Except.ok r → r.networkConfig = some c) ∧
    (k.apertusKeyConfig = none → (TableKey.BeforeSave k).apertusEndpoint = none) ∧
    (k.azureKeyConfig = none → (TableKey.BeforeSave k).azureEndpoint = none ∧
      (TableKey.BeforeSave k).azureAPIVersion = none ∧
      (TableKey.BeforeSave k).azureDeploymentsJSON = none) := by
  have hc := beforeSave_preserves_nil_columns p q hsave
  refine ⟨hc.1, hc.2.1, hc.2.2.1, hc.2.2.2, ?_, ?_, ?_⟩
  · intro c r hnc hdoc hfind
    refine afterFind_networkConfig_of_doc q c r ?_ hfind
    rw [hc.1 hnc, hdoc]
  · intro ha
    unfold TableKey.BeforeSave
    rw [ha]
    cases k.models <;> cases k.azureKeyConfig <;> cases k.vertexKeyConfig <;>
      cases k.bedrockKeyConfig <;> rfl
  · intro hz
    unfold TableKey.BeforeSave
    rw [hz]
    cases k.models <;> cases k.vertexKeyConfig <;> cases k.bedrockKeyConfig <;>
      cases k.apertusKeyConfig <;> exact ⟨rfl, rfl, rfl⟩

/-- Witness for C10 at concrete inputs: saving a row whose virtual network
config was cleared leaves the stored column intact, and the next read
resurrects the old configuration. -/
theorem C10_sticky_provider_columns_witness :
    TableProvider.networkConfig { demoProviderRow with networkConfig := some demoNet } =
      some demoNet :=
  (C10_sticky_provider_columns demoProviderRow demoProviderRow demoRowBase rfl).2.2.2.2.1
    demoNet { demoProviderRow with networkConfig := some demoNet } rfl rfl rfl

/-- Counterexample for C8: a stored row whose Azure group has a non-null
API-version column but a null endpoint column decodes successfully with NO
reconstructed Azure override value, contradicting the claim that any
non-null column in the group triggers reconstruction. -/
theorem C8_counterexample :
    demoRowAzureVersionOnly.azureAPIVersion.isSome = true ∧
    (demoRowAzureVersionOnly.AfterFind).map (fun k => k.azureKeyConfig) = Except.ok none :=
  ⟨rfl, rfl⟩

theorem afterFindModels_ok_shape (k k1 : TableKey) (h : k.afterFindModels = Except.ok k1) :
    ∃ m, k1 = { k with models := m } := by
  unfold TableKey.afterFindModels at h
  split at h
  · exact ⟨_, (Except.ok.inj h).symm⟩
  · split at h
    · exact ⟨k.models, (Except.ok.inj h).symm⟩
    · cases h

theorem afterFindAzure_ok_shape (k k1 : TableKey) (h : k.afterFindAzure = Except.ok k1) :
    ∃ a, k1 = { k with azureKeyConfig := a } ∧
      a.isSome = (k.azureEndpoint.isSome || k.azureKeyConfig.isSome) := by
  unfold TableKey.afterFindAzure at h
  split at h
  · rename_i hep
    exact ⟨k.azureKeyConfig, (Except.ok.inj h).symm, by simp [hep]⟩
  · rename_i ep hep
    split at h
    · rename_i hdep
      exact ⟨_, (Except.ok.inj h).symm, by simp [hep]⟩
    · rename_i m hdep
      exact ⟨_, (Except.ok.inj h).symm, by simp [hep]⟩
    · cases h

theorem afterFindVertex_shape (k : TableKey) :
    ∃ v, k.afterFindVertex = { k with vertexKeyConfig := v } ∧
      v.isSome = (k.vertexProjectID.isSome || k.vertexRegion.isSome ||
        k.vertexAuthCredentials.isSome || k.vertexKeyConfig.isSome) := by
  cases hb : (k.vertexProjectID.isSome || k.vertexRegion.isSome ||
      k.vertexAuthCredentials.isSome) with
  | true =>
    refine ⟨some { projectID := k.vertexProjectID.getD "", region := k.vertexRegion.getD "", authCredentials := k.vertexAuthCredentials.getD "" }, ?_, by simp [hb]⟩
    simp [TableKey.afterFindVertex, hb]
  | false =>
    refine ⟨k.vertexKeyConfig, ?_, by simp [hb]⟩
    simp [TableKey.afterFindVertex, hb]

theorem afterFindBedrock_ok_shape (k k1 : TableKey) (h : k.afterFindBedrock = Except.ok k1) :
    ∃ b, k1 = { k with bedrockKeyConfig := b } ∧
      b.isSome = (k.bedrockTrigger || k.bedrockKeyConfig.isSome) := by
  unfold TableKey.afterFindBedrock at h
  split at h
  · rename_i htr
    split at h
    · exact ⟨_, (Except.ok.inj h).symm, by simp [htr]⟩
    · exact ⟨_, (Except.ok.inj h).symm, by simp [htr]⟩
    · cases h
  · rename_i htr
    refine ⟨k.bedrockKeyConfig, (Except.ok.inj h).symm, ?_⟩
    rw [Bool.not_eq_true] at htr
    simp [htr]

theorem afterFindApertus_shape (k : TableKey) :
    ∃ a, k.afterFindApertus = { k with apertusKeyConfig := a } ∧
      a.isSome = (k.apertusEndpoint.isSome || k.apertusKeyConfig.isSome) := by
  obtain ⟨nm, pv, ki, vl, mj, azEp, azVer, azDep, vpID, vReg, vAuth, bAK, bSK, bST, bReg,
    bARN, bDep, apEp, mo, azC, vC, bC, apC⟩ := k
  cases apEp with
  | some ep =>
    exact ⟨some { endpoint := ep, modelNameMappings := none }, rfl, by simp⟩
  | none =>
    exact ⟨apC, rfl, by simp⟩

theorem afterFindModels_err (k : TableKey) (s : String) (hs : s ≠ "")
    (hm : k.modelsJSON = ListJsonText.raw s) :
    k.afterFindModels = Except.error "failed to unmarshal models JSON" := by
  simp [TableKey.afterFindModels, hm, hs]

theorem afterFindAzure_err (k : TableKey) (ep s : String)
    (hep : k.azureEndpoint = some ep)
    (hdep : k.azureDeploymentsJSON = some (MapJsonText.raw s)) :
    k.afterFindAzure = Except.error "failed to unmarshal azure deployments JSON" := by
  simp [TableKey.afterFindAzure, hep, hdep]

theorem afterFindBedrock_err (k : TableKey) (s : String)
    (htr : k.bedrockTrigger = true)
    (hdep : k.bedrockDeploymentsJSON = some (MapJsonText.raw s)) :
    k.afterFindBedrock = Except.error "failed to unmarshal bedrock deployments JSON" := by
  simp [TableKey.afterFindBedrock, htr, hdep]

/-- Claim C8 (amended): on a freshly loaded row the post-read hook
reconstructs the Vertex group iff any of its columns is non-null and the
Bedrock group iff any scalar column is non-null or the deployments column is
non-null and non-empty, but the Azure and Apertus groups reconstruct iff
their endpoint column is non-null (other columns alone do not trigger);
and a column that fails to deserialize — the models list, the Azure
deployments, or the Bedrock deployments — makes the whole read fail, with no
partial reconstruction. -/
theorem C8_reconstruction (k : TableKey)
    (hza : k.azureKeyConfig = none) (hzv : k.vertexKeyConfig = none)
    (hzb : k.bedrockKeyConfig = none) (hzp : k.apertusKeyConfig = none) :
    (∀ k1, k.AfterFind = Except.ok k1 →
      (k1.azureKeyConfig.isSome = k.azureEndpoint.isSome ∧
       k1.apertusKeyConfig.isSome = k.apertusEndpoint.isSome ∧
       k1.vertexKeyConfig.isSome =
         (k.vertexProjectID.isSome || k.vertexRegion.isSome ||
          k.vertexAuthCredentials.isSome) ∧
       k1.bedrockKeyConfig.isSome = k.bedrockTrigger)) ∧
    (∀ ep s k1, k.azureEndpoint = some ep →
      k.azureDeploymentsJSON = some (MapJsonText.raw s) →
      k.AfterFind ≠ Except.ok k1) ∧
    (∀ s k1, s ≠ "" → k.modelsJSON = ListJsonText.raw s →
      k.AfterFind ≠ Except.ok k1) ∧
    (∀ s k1, k.bedrockTrigger = true →
      k.bedrockDeploymentsJSON = some (MapJsonText.raw s) →
      k.AfterFind ≠ Except.ok k1) := by
  refine ⟨?_, ?_, ?_, ?_⟩
  · intro k1 h
    unfold TableKey.AfterFind at h
    cases hm : k.afterFindModels with
    | error e =>
      rw [hm] at h
      simp only [bind, Except.bind] at h
      exact Except.noConfusion h
    | ok ka =>
      rw [hm] at h
      simp only [bind, Except.bind] at h
      cases haz : ka.afterFindAzure with
      | error e =>
        rw [haz] at h
        simp only [bind, Except.bind] at h
        exact Except.noConfusion h
      | ok kb =>
        rw [haz] at h
        simp only [bind, Except.bind] at h
        cases hbd : (kb.afterFindVertex).afterFindBedrock with
        | error e =>
          rw [hbd] at h
          simp only [bind, Except.bind] at h
          exact Except.noConfusion h
        | ok kd =>
          rw [hbd] at h
          simp only [bind, Except.bind, pure, Except.pure] at h
          obtain rfl := Except.ok.inj h
          obtain ⟨m, hka⟩ := afterFindModels_ok_shape k ka hm
          obtain ⟨a, hkb, hA⟩ := afterFindAzure_ok_shape ka kb haz
          obtain ⟨v, hveq, hV⟩ := afterFindVertex_shape kb
          rw [hveq] at hbd
          obtain ⟨b, hkd, hB⟩ := afterFindBedrock_ok_shape _ kd hbd
          obtain ⟨ap, hpeq, hP⟩ := afterFindApertus_shape kd
          rw [hpeq]
          subst hka
          subst hkb
          subst hkd
          refine ⟨?_, ?_, ?_, ?_⟩ <;> simp_all [TableKey.bedrockTrigger]
  · intro ep s k1 hep hdep hcontra
    unfold TableKey.AfterFind at hcontra
    cases hm : k.afterFindModels with
    | error e =>
      rw [hm] at hcontra
      simp only [bind, Except.bind] at hcontra
      exact Except.noConfusion hcontra
    | ok ka =>
      rw [hm] at hcontra
      simp only [bind, Except.bind] at hcontra
      obtain ⟨m, hka⟩ := afterFindModels_ok_shape k ka hm
      have hep2 : ka.azureEndpoint = some ep := by rw [hka]; exact hep
      have hdep2 : ka.azureDeploymentsJSON = some (MapJsonText.raw s) := by
        rw [hka]; exact hdep
      rw [afterFindAzure_err ka ep s hep2 hdep2] at hcontra
      simp only [bind, Except.bind] at hcontra
      exact Except.noConfusion hcontra
  · intro s k1 hs hms hcontra
    unfold TableKey.AfterFind at hcontra
    rw [afterFindModels_err k s hs hms] at hcontra
    simp only [bind, Except.bind] at hcontra
    exact Except.noConfusion hcontra
  · intro s k1 htr hdep hcontra
    unfold TableKey.AfterFind at hcontra
    cases hm : k.afterFindModels with
    | error e =>
      rw [hm] at hcontra
      simp only [bind, Except.bind] at hcontra
      exact Except.noConfusion hcontra
    | ok ka =>
      rw [hm] at hcontra
      simp only [bind, Except.bind] at hcontra
      obtain ⟨m, hka⟩ := afterFindModels_ok_shape k ka hm
      cases haz : ka.afterFindAzure with
      | error e =>
        rw [haz] at hcontra
        simp only [bind, Except.bind] at hcontra
        exact Except.noConfusion hcontra
      | ok kb =>
        rw [haz] at hcontra
        simp only [bind, Except.bind] at hcontra
        obtain ⟨a, hkb, _⟩ := afterFindAzure_ok_shape ka kb haz
        obtain ⟨v, hveq, _⟩ := afterFindVertex_shape kb
        rw [hveq] at hcontra
        have htr2 : TableKey.bedrockTrigger { kb with vertexKeyConfig := v } = true := by
          rw [hkb, hka]
          simp only [TableKey.bedrockTrigger] at htr ⊢
          simpa using htr
        have hdep2 : TableKey.bedrockDeploymentsJSON { kb with vertexKeyConfig := v } =
            some (MapJsonText.raw s) := by
          rw [hkb, hka]
          exact hdep
        rw [afterFindBedrock_err _ s htr2 hdep2] at hcontra
        simp only [bind, Except.bind] at hcontra
        exact Except.noConfusion hcontra

/-- Witness for C8 (amended) at concrete inputs: a malformed models column
fails the whole read, and the trigger characterization holds on the all-null
row. -/
theorem C8_reconstruction_witness :
    (TableKey.AfterFind { demoRowBase with modelsJSON := ListJsonText.raw "not json" } =
      Except.ok demoRowBase) = False ∧
    demoRowBase.azureKeyConfig.isSome = demoRowBase.azureEndpoint.isSome :=
  ⟨eq_false ((C8_reconstruction { demoRowBase with modelsJSON := ListJsonText.raw "not json" }
      rfl rfl rfl rfl).2.2.1 "not json" demoRowBase (by decide) rfl),
   ((C8_reconstruction demoRowBase rfl rfl rfl rfl).1 demoRowBase rfl).1⟩

end Bifrost
